/-
  Verification development for the `simple-inbox-status` browser extension.

  The authoritative source is `chrome/src/background.js` (class
  `SimpleInboxStatus`).  JavaScript strings are embedded as `List Char`
  (a JS string is a sequence of code units; all strings involved here are
  plain text, so `List Char` is a faithful model and keeps the split /
  substring operations structurally recursive).  JavaScript values that may
  be `undefined`, `null`, or a string are embedded as the inductive `JSVal`.
  The external `jwt_decode` library (base64url + JSON decoding of the JWT
  payload) is modelled as an explicit `decode` function parameter producing
  a `Payload`; nothing in the repository constrains it, and every concrete
  `decode` used below is realisable by an actual base64url-encoded JSON
  payload.  Numeric JWT claims (`nbf`, `exp`) are modelled as `Int`
  (seconds), and `Date` comparisons happen at millisecond precision, as in
  the source.
-/
import Mathlib

/-- Convenience: the character list underlying a string literal. -/
def cl (s : String) : List Char := s.data

/-- A JavaScript value that is either `undefined`, `null`, or a string. -/
inductive JSVal where
  | undef : JSVal
  | null : JSVal
  | str : List Char → JSVal
deriving DecidableEq

/-- JS template-literal interpolation of a `JSVal` (as in `${v}`). -/
def jsValToString : JSVal → List Char
  | .undef => cl "undefined"
  | .null => cl "null"
  | .str s => s

/-- JS truthiness for the values we model: `undefined` and `null` are falsy,
a string is truthy iff non-empty. -/
def jsTruthy : JSVal → Bool
  | .undef => false
  | .null => false
  | .str s => ! s.isEmpty

/-- The `this.user` object: fields written by `validate_id_token` and the
profile fetch in `finish_auth`.  Absent fields are `undef`. -/
structure UserProfile where
  display_name : JSVal
  signin_name : JSVal
  domain_type : JSVal
  email : JSVal
deriving DecidableEq

/-- The empty `{}` user object from the constructor. -/
def UserProfile.initial : UserProfile := ⟨.undef, .undef, .undef, .undef⟩

/-- The mutable fields of the `SimpleInboxStatus` instance (the Session of
the specification). -/
structure Session where
  is_authorized : Bool
  access_token : JSVal
  id_token : JSVal
  current_nonce : JSVal
  user : UserProfile
deriving DecidableEq

/-- The constructor state: unauthorized, all tokens `null`, empty user. -/
def Session.initial : Session :=
  ⟨false, .null, .null, .null, UserProfile.initial⟩

/-- Static configuration read from the extension manifest and the host
runtime: `manifest.oauth2.client_id`, `manifest.oauth2.api_endpoint`,
`manifest.oauth2.auth_url`, `chrome.identity.getRedirectURL('/callback')`,
and `manifest.oauth2.scopes.join(' ')`. -/
structure Config where
  client_id : List Char
  api_endpoint : List Char
  auth_url : List Char
  redirect_url : List Char
  scope : List Char

/-- `this.mail_folders_url`: the api endpoint followed by `/me/MailFolders?`
(the trailing question mark is part of the string, line 73 of the source). -/
def Config.mail_folders_url (cfg : Config) : List Char :=
  cfg.api_endpoint ++ cl "/me/MailFolders?"

/-- `this.me_url`: the api endpoint followed by `/me`. -/
def Config.me_url (cfg : Config) : List Char :=
  cfg.api_endpoint ++ cl "/me"

/-- The decoded JWT payload as produced by the external `jwt_decode`
library.  String-or-absent claims are `JSVal`; the numeric `nbf` / `exp`
claims are seconds since the epoch. -/
structure Payload where
  nonce : JSVal
  aud : JSVal
  iss : JSVal
  tid : JSVal
  nbf : Int
  exp : Int
  name : JSVal
  preferred_username : JSVal

/-- JS `String.prototype.split` with a one-character separator:
`''.split(sep)` is `['']`, and `n` separators yield `n+1` pieces. -/
def splitOnChar (sep : Char) : List Char → List (List Char)
  | [] => [[]]
  | c :: rest =>
    let r := splitOnChar sep rest
    if c = sep then [] :: r
    else
      match r with
      | [] => [[c]]
      | h :: t => (c :: h) :: t

/-- The expected issuer string
`https://login.microsoftonline.com/` `${tid}` `/v2.0` built from the
token's own `tid` claim by template interpolation. -/
def issuer_of (tid : JSVal) : List Char :=
  cl "https://login.microsoftonline.com/" ++ jsValToString tid ++ cl "/v2.0"

/-- The well-known consumer-tenant GUID compared against `tid`. -/
def consumer_tid : List Char := cl "9188040d-6c67-4c5b-b112-36a304b66dad"

/-- `validate_id_token` (background.js lines 333-394), as a pure function.
Inputs: the `jwt_decode` model, the configured client id, the current time
in milliseconds, the session's `current_nonce`, the current `this.user`,
and the token value.  Returns the boolean result together with the
resulting `this.user` (written only on acceptance). -/
def validate_id_token (decode : List Char → Payload) (client_id : List Char)
    (now_ms : Int) (current_nonce : JSVal) (user : UserProfile)
    (token : JSVal) : Bool × UserProfile :=
  match token with
  | .undef => (false, user)
  | .null => (false, user)
  | .str t =>
    if t.isEmpty then (false, user)
    else if (splitOnChar '.' t).length ≠ 3 then (false, user)
    else
      let decoded := decode t
      if decoded.nonce ≠ current_nonce then (false, user)
      else if decoded.aud ≠ JSVal.str client_id then (false, user)
      else if decoded.iss ≠ JSVal.str (issuer_of decoded.tid) then (false, user)
      else if now_ms < (decoded.nbf - 300) * 1000 ∨
              ((decoded.exp + 300) * 1000 : Int) < now_ms then (false, user)
      else
        (true,
         { user with
             display_name := decoded.name,
             signin_name := decoded.preferred_username,
             domain_type :=
               if decoded.tid = JSVal.str consumer_tid
               then JSVal.str (cl "consumers")
               else JSVal.str (cl "organizations") })

/-- The substring of the response after the first `#` character, as computed
by `response.substring( response.indexOf( '#' ) + 1 )`: when no `#` occurs,
`indexOf` is `-1` and the whole string is kept. -/
def substring_after_hash (s : List Char) : List Char :=
  match s.dropWhile (fun c => ¬ (c = '#')) with
  | [] => s
  | _ :: rest => rest

/-- `parse_auth_response` (background.js lines 311-321): split the fragment
on `&`, split each piece on `=`, and record `param[0] ↦ param[1]`.  The
value is `none` exactly when the piece contained no `=` (JS `param[1]` is
then `undefined`). -/
def parse_auth_response (response : List Char) :
    List (List Char × Option (List Char)) :=
  (splitOnChar '&' (substring_after_hash response)).map
    (fun p =>
      let parts := splitOnChar '=' p
      (parts.headD [], parts.get? 1))

/-- Property read `result[key]` on the object built by
`parse_auth_response`: later assignments overwrite earlier ones, a key
assigned `undefined` reads as `undefined`, and a missing key reads as
`undefined`. -/
def jsLookup (l : List (List Char × Option (List Char))) (key : List Char) :
    JSVal :=
  match l.reverse.find? (fun p => p.1 = key) with
  | none => .undef
  | some (_, none) => .undef
  | some (_, some v) => .str v

/-- Uppercase hexadecimal digit for a value below 16 (used by the
percent-encoding of `encodeURIComponent`). -/
def hexDigitUpper (n : Nat) : Char :=
  if n < 10 then Char.ofNat (48 + n) else Char.ofNat (55 + n)

/-- The UTF-8 bytes of a character (what `encodeURIComponent`
percent-encodes for non-ASCII input). -/
def utf8Bytes (c : Char) : List Nat :=
  let n := c.toNat
  if n < 0x80 then [n]
  else if n < 0x800 then [0xC0 + n / 0x40, 0x80 + n % 0x40]
  else if n < 0x10000 then
    [0xE0 + n / 0x1000, 0x80 + (n / 0x40) % 0x40, 0x80 + n % 0x40]
  else
    [0xF0 + n / 0x40000, 0x80 + (n / 0x1000) % 0x40,
     0x80 + (n / 0x40) % 0x40, 0x80 + n % 0x40]

/-- The characters `encodeURIComponent` leaves unescaped:
`A-Z a-z 0-9 - _ . ! ~ * ' ( )`. -/
def is_uri_unreserved (c : Char) : Bool :=
  c.isAlpha || c.isDigit || c = '-' || c = '_' || c = '.' ||
  c = Char.ofNat 33 || c = '~' || c = '*' || c = Char.ofNat 39 ||
  c = '(' || c = ')'

/-- The JS global `encodeURIComponent`: unreserved characters kept, every
other character replaced by the uppercase percent-encoding of its UTF-8
bytes. -/
def encodeURIComponent (s : List Char) : List Char :=
  s.flatMap (fun c =>
    if is_uri_unreserved c then [c]
    else (utf8Bytes c).flatMap
      (fun b => ['%', hexDigitUpper (b / 16), hexDigitUpper (b % 16)]))

/-- Lowercase hexadecimal digit (JS `Number.prototype.toString(16)`). -/
def hexDigitLower (n : Nat) : Char :=
  if n < 10 then Char.ofNat (48 + n) else Char.ofNat (87 + n)

/-- Auxiliary for `natToHex`: most significant digits first. -/
def natToHexAux (n : Nat) (acc : List Char) : List Char :=
  if h : n < 16 then hexDigitLower n :: acc
  else natToHexAux (n / 16) (hexDigitLower (n % 16) :: acc)
  termination_by n
  decreasing_by exact Nat.div_lt_self (by omega) (by omega)

/-- `num.toString(16)` for a non-negative integer. -/
def natToHex (n : Nat) : List Char := natToHexAux n []

/-- The `s4` helper of `create_nonce`: left-pad the hex representation with
zeros to at least four characters. -/
def s4 (n : Nat) : List Char :=
  let ret := natToHex n
  List.replicate (4 - ret.length) '0' ++ ret

/-- `create_nonce` (background.js lines 156-181) applied to the eight
16-bit values delivered by `crypto.getRandomValues`: hex-encode each part,
inserting a dash before parts 2, 3, 4 and 5. -/
def create_nonce (parts : List Nat) : List Char :=
  (parts.enum).foldl
    (fun result p =>
      result ++ (if 1 < p.1 ∧ p.1 < 6 then ['-'] else []) ++ s4 p.2)
    []

/-- One element of the mail-folder listing's `value` array. -/
structure MailFolder where
  DisplayName : List Char
  UnreadItemCount : Int
deriving DecidableEq

/-- `calculate_total_unread_messages` (background.js lines 142-154): sum
the unread counts, skipping folders whose display name is `Archive`. -/
def calculate_total_unread_messages (mail_folders : List MailFolder) : Int :=
  mail_folders.foldl
    (fun count folder =>
      if folder.DisplayName = cl "Archive" then count
      else count + folder.UnreadItemCount)
    0

/-- The badge text computed by `update_status_badge`: empty for non-positive
counts, the decimal string for 1-9, and `9+` above 9. -/
def badge_text (count : Int) : List Char :=
  if count > 9 then cl "9+"
  else if count > 0 then (toString count).data
  else []

/-- `generate_request_url` (background.js lines 263-272): append
`key=value` pairs to the url, separated by `&`, with no separator after a
key equal to the last key. -/
def generate_request_url (url : List Char)
    (query_data : List (List Char × List Char)) : List Char :=
  let keys := query_data.map Prod.fst
  query_data.foldl
    (fun acc p =>
      acc ++ p.1 ++ ['='] ++ p.2 ++
        (if p.1 = keys.getLastD [] then [] else ['&']))
    url

/-- JS `Object.assign` overwriting an existing key: the key keeps its
position, its value is replaced. -/
def setKey (l : List (List Char × List Char)) (key v : List Char) :
    List (List Char × List Char) :=
  l.map (fun p => if p.1 = key then (key, v) else p)

/-- The `query` object built by `authorize` (background.js lines 103-131),
in JS key-insertion order, with values interpolated to strings as the
serialization loop would.  `nonce` and `state` are the two fresh
`create_nonce` results; the hint values come from `this.user`. -/
def auth_query (cfg : Config) (user : UserProfile) (interactive : Bool)
    (nonce state : List Char) : List (List Char × List Char) :=
  let base : List (List Char × List Char) :=
    [(cl "client_id", cfg.client_id),
     (cl "redirect_uri", encodeURIComponent cfg.redirect_url),
     (cl "response_type", encodeURIComponent (cl "id_token token")),
     (cl "scope", encodeURIComponent cfg.scope),
     (cl "response_mode", cl "fragment"),
     (cl "nonce", nonce),
     (cl "state", state)]
  if interactive = false then
    setKey base (cl "response_type") (cl "token") ++
      [(cl "prompt", cl "none"),
       (cl "domain_hint", jsValToString user.domain_type),
       (cl "login_hint", jsValToString user.signin_name)]
  else if jsTruthy user.domain_type ∧ jsTruthy user.signin_name then
    base ++
      [(cl "domain_hint", jsValToString user.domain_type),
       (cl "login_hint", jsValToString user.signin_name)]
  else base

/-- The raw (pre-encoding) values of the same query, used to state the
specification's encoding discipline: this definition follows the spec's
words, where every value is meant to be percent-encoded during
serialization. -/
def auth_query_raw (cfg : Config) (user : UserProfile) (interactive : Bool)
    (nonce state : List Char) : List (List Char × List Char) :=
  let base : List (List Char × List Char) :=
    [(cl "client_id", cfg.client_id),
     (cl "redirect_uri", cfg.redirect_url),
     (cl "response_type", cl "id_token token"),
     (cl "scope", cfg.scope),
     (cl "response_mode", cl "fragment"),
     (cl "nonce", nonce),
     (cl "state", state)]
  if interactive = false then
    setKey base (cl "response_type") (cl "token") ++
      [(cl "prompt", cl "none"),
       (cl "domain_hint", jsValToString user.domain_type),
       (cl "login_hint", jsValToString user.signin_name)]
  else if jsTruthy user.domain_type ∧ jsTruthy user.signin_name then
    base ++
      [(cl "domain_hint", jsValToString user.domain_type),
       (cl "login_hint", jsValToString user.signin_name)]
  else base

/-- Serialization of the authorization query as the spec describes it:
every raw value percent-encoded (exactly once) before being appended. -/
def auth_url_spec (cfg : Config) (user : UserProfile) (interactive : Bool)
    (nonce state : List Char) : List Char :=
  generate_request_url cfg.auth_url
    ((auth_query_raw cfg user interactive nonce state).map
      (fun p => (p.1, encodeURIComponent p.2)))

/-- Serialization of the authorization query as the code performs it. -/
def auth_url_code (cfg : Config) (user : UserProfile) (interactive : Bool)
    (nonce state : List Char) : List Char :=
  generate_request_url cfg.auth_url (auth_query cfg user interactive nonce state)

/-- HTTP method of a modelled request. -/
inductive Method where
  | GET : Method
  | POST : Method
deriving DecidableEq

/-- Observable events of one run: outgoing HTTP requests (method, url,
and the value passed as the `body` argument of `make_remote_request`),
the start of a nested `authorize` call, the resolution of the awaited
`authorize` promise, console error logging, the `chrome.storage.sync.set`
write, the fetch scheduled by that write's callback, and a badge update. -/
inductive Event where
  | request : Method → List Char → Option (List (List Char × List Char)) → Event
  | authStart : Bool → Event
  | authResolved : Event
  | logErr : Nat → Event
  | storeWrite : Event
  | fetchScheduled : Event
  | badge : List Char → Event
deriving DecidableEq

/-- Result of one `finish_auth` run: the session afterwards, whether the
`resolve` callback of the enclosing `authorize` promise was invoked, and
the emitted events. -/
structure FAResult where
  session : Session
  resolved : Bool
  events : List Event
deriving DecidableEq

/-- `finish_auth` (background.js lines 219-261) for one web-auth-flow
outcome.  `webResult` is `none` when `chrome.runtime.lastError` is set and
otherwise carries the redirect URL handed to `parse_auth_response`.
`profileEmail` is `some v` when the follow-up profile fetch succeeded with
`EmailAddress` equal to `v`, and `none` when it failed.  A nested
`this.authorize()` call on the silent-validation-failure path is emitted as
an `authStart true` event; its own effects (fresh nonce, new web-auth
flow) are separate steps of the transition system below. -/
def finish_auth (cfg : Config) (s : Session) (interactive : Bool)
    (webResult : Option (List Char)) (decode : List Char → Payload)
    (now_ms : Int) (profileEmail : Option JSVal) : FAResult :=
  match webResult with
  | none => ⟨s, true, [.logErr 0]⟩
  | some resp =>
    let r := parse_auth_response resp
    let tok := jsLookup r (cl "id_token")
    let v := validate_id_token decode cfg.client_id now_ms s.current_nonce
      s.user tok
    if v.1 then
      let s1 : Session :=
        { s with
            id_token := tok,
            access_token := jsLookup r (cl "access_token"),
            is_authorized := true,
            user := v.2 }
      let s2 : Session :=
        match profileEmail with
        | some e => { s1 with user := { s1.user with email := e } }
        | none => s1
      ⟨s2, true, [.request .GET cfg.me_url none, .storeWrite, .fetchScheduled]⟩
    else if interactive then ⟨{ s with user := v.2 }, false, [.logErr 1]⟩
    else ⟨{ s with user := v.2 }, false, [.authStart true]⟩

/-- The response object of a remote request: `ok`, `status`, and the
`value` array of the JSON body (meaningful only when `ok`). -/
structure HttpResponse where
  ok : Bool
  status : Int
  value : List MailFolder
deriving DecidableEq

/-- The filter query of `fetch_message_count` (background.js lines
188-191). -/
def fetch_query : List (List Char × List Char) :=
  [(cl "$filter", encodeURIComponent (cl "UnreadItemCount gt 0")),
   (cl "$top", cl "50")]

/-- The tail of `fetch_message_count` after a response has been settled on
(background.js lines 206-217): log-and-abort on failure, otherwise sum the
folders and render the badge. -/
def finish_fetch (s : Session) (resp : HttpResponse) (evs : List Event) :
    Option Session × List Event :=
  if resp.ok = false then (some s, evs ++ [.logErr 2])
  else
    (some s,
     evs ++ [.badge (badge_text (calculate_total_unread_messages resp.value))])

/-- `fetch_message_count` (background.js lines 183-217) for one timer
fire, with the environment's behaviour supplied as oracles: `resp1` is the
first response, `nonce` the fresh nonce of the silent `authorize`,
`webResult` / `decode` / `now_ms` / `profileEmail` drive the
`finish_auth` of that silent attempt, and `resp2` is the response to the
retried request.  The result session is `none` when the awaited
reauthorization promise never resolves (its `finish_auth` neither hit
`lastError` nor validated the token), in which case the suspended function
never resumes and no retry is issued. -/
def fetch_message_count (cfg : Config) (s : Session) (resp1 : HttpResponse)
    (nonce : List Char) (webResult : Option (List Char))
    (decode : List Char → Payload) (now_ms : Int)
    (profileEmail : Option JSVal) (resp2 : HttpResponse) :
    Option Session × List Event :=
  if s.is_authorized = false then (some s, [])
  else
    let url := generate_request_url cfg.mail_folders_url fetch_query
    let ev1 : List Event := [.request .GET url none]
    if resp1.ok = false ∧ resp1.status < 500 then
      let far := finish_auth cfg { s with current_nonce := .str nonce } false
        webResult decode now_ms profileEmail
      let evAuth := ev1 ++ [.authStart false] ++ far.events
      if far.resolved then
        finish_fetch far.session resp2
          (evAuth ++
           [.authResolved, .request .POST cfg.mail_folders_url (some fetch_query)])
      else (none, evAuth)
    else finish_fetch s resp1 ev1

/-- The extension's session together with the content of the synchronized
store (`chrome.storage.sync`).  The store initially holds nothing, so a
`get` with the constructor defaults returns `Session.initial`; after each
successful authorization `finish_auth` writes the whole session. -/
structure World where
  session : Session
  store : Session
deriving DecidableEq

/-- The world at process start: constructor state, empty store. -/
def World.start : World := ⟨Session.initial, Session.initial⟩

/-- Apply a `finish_auth` result to the world: the session is replaced,
and the store is rewritten (with the whole new session) exactly when the
run performed the `chrome.storage.sync.set` call. -/
def applyFA (w : World) (fa : FAResult) : World :=
  ⟨fa.session, if Event.storeWrite ∈ fa.events then fa.session else w.store⟩

/-- The session-mutating transitions of the background page, relative to a
configuration, a `jwt_decode` model, and a predicate `P` restricting which
redirect fragments the identity provider may deliver (`fun _ => True`
places no restriction).  `storeLoad` is `initialize` reading the store
back; `authStart` is the synchronous prefix of `authorize` picking a fresh
nonce; `finishAuth` is one `finish_auth` run on a delivered redirect;
`finishAuthErr` is the `chrome.runtime.lastError` branch.  Operations that
do not touch the session or store (`fetch_message_count`'s request and
badge activity) are omitted, as they cannot affect session invariants. -/
inductive ReachableP (cfg : Config) (decode : List Char → Payload)
    (P : List Char → Prop) : World → Prop where
  | start : ReachableP cfg decode P World.start
  | storeLoad (w : World) : ReachableP cfg decode P w →
      ReachableP cfg decode P ⟨w.store, w.store⟩
  | authStart (w : World) (n : List Char) : ReachableP cfg decode P w →
      ReachableP cfg decode P
        ⟨{ w.session with current_nonce := .str n }, w.store⟩
  | finishAuth (w : World) (interactive : Bool) (frag : List Char)
      (now_ms : Int) (profileEmail : Option JSVal) (hP : P frag) :
      ReachableP cfg decode P w →
      ReachableP cfg decode P
        (applyFA w
          (finish_auth cfg w.session interactive (some frag) decode now_ms
            profileEmail))
  | finishAuthErr (w : World) (interactive : Bool) (now_ms : Int)
      (profileEmail : Option JSVal) : ReachableP cfg decode P w →
      ReachableP cfg decode P
        (applyFA w
          (finish_auth cfg w.session interactive none decode now_ms
            profileEmail))

/-- The specification's token invariant: `accessToken` and `idToken` are
both strings or both `null`. -/
def tokens_consistent (s : Session) : Prop :=
  (∃ a b, s.access_token = JSVal.str a ∧ s.id_token = JSVal.str b) ∨
  (s.access_token = JSVal.null ∧ s.id_token = JSVal.null)

/-- Fragments whose parse yields a string-valued `access_token` entry. -/
def fragment_has_access_token (frag : List Char) : Prop :=
  ∃ a, jsLookup (parse_auth_response frag) (cl "access_token") = JSVal.str a

/-- A small concrete configuration used for witnesses and
counterexamples. -/
def cfg0 : Config :=
  ⟨cl "c", cl "https://api", cl "https://auth?", cl "https://cb/callback",
   cl "m.read"⟩

/-- A concrete decoded payload matching `cfg0` and nonce `n`: realisable as
the base64url-encoded JSON payload of an actual three-segment token. -/
def payload0 : Payload :=
  ⟨.str (cl "n"), .str (cl "c"),
   .str (cl "https://login.microsoftonline.com/t/v2.0"), .str (cl "t"),
   0, 0, .undef, .undef⟩

/-- A concrete `jwt_decode` model returning `payload0` for every token. -/
def decode0 : List Char → Payload := fun _ => payload0

/-- The world after the synchronous prefix of an `authorize` call picked
the nonce `n` at process start. -/
def c3_step1 : World :=
  ⟨{ Session.initial with current_nonce := .str (cl "n") }, Session.initial⟩

/-- The world after `finish_auth` then accepts a redirect fragment that
carries a valid id token but no `access_token` parameter. -/
def c3_bad_world : World :=
  applyFA c3_step1
    (finish_auth cfg0 c3_step1.session false (some (cl "#id_token=a.b.c"))
      decode0 0 none)

/-- A concrete authorized session (tokens present). -/
def s_auth : Session :=
  ⟨true, .str (cl "at"), .str (cl "it"), .null, UserProfile.initial⟩

/-- A concrete failed first response (expired token: 401). -/
def resp401 : HttpResponse := ⟨false, 401, []⟩

/-- A concrete successful response with no folders. -/
def resp200 : HttpResponse := ⟨true, 200, []⟩

/-- The request events of a trace. -/
def requests (evs : List Event) : List Event :=
  evs.filter fun e =>
    match e with
    | .request _ _ _ => true
    | _ => false

/-- The retried mail-folder request of `fetch_message_count`: a POST to the
bare mail-folders url with the query object passed as the request body. -/
def retry_event (cfg : Config) : Event :=
  .request .POST cfg.mail_folders_url (some fetch_query)

/-- A concrete user carrying sign-in hints, with an email address as the
sign-in name. -/
def user_hint : UserProfile :=
  ⟨.undef, .str (cl "user@example.com"), .str (cl "consumers"), .undef⟩

/-- The authorization query with the encoding discipline the code actually
follows (this definition follows the amended specification wording):
`redirect_uri`, `scope`, and the interactive `response_type` value are
percent-encoded exactly once; every other value is serialized raw. -/
def auth_query_amended_spec (cfg : Config) (user : UserProfile)
    (interactive : Bool) (nonce state : List Char) :
    List (List Char × List Char) :=
  if interactive = false then
    [(cl "client_id", cfg.client_id),
     (cl "redirect_uri", encodeURIComponent cfg.redirect_url),
     (cl "response_type", cl "token"),
     (cl "scope", encodeURIComponent cfg.scope),
     (cl "response_mode", cl "fragment"),
     (cl "nonce", nonce),
     (cl "state", state),
     (cl "prompt", cl "none"),
     (cl "domain_hint", jsValToString user.domain_type),
     (cl "login_hint", jsValToString user.signin_name)]
  else
    [(cl "client_id", cfg.client_id),
     (cl "redirect_uri", encodeURIComponent cfg.redirect_url),
     (cl "response_type", encodeURIComponent (cl "id_token token")),
     (cl "scope", encodeURIComponent cfg.scope),
     (cl "response_mode", cl "fragment"),
     (cl "nonce", nonce),
     (cl "state", state)] ++
    (if jsTruthy user.domain_type ∧ jsTruthy user.signin_name then
      [(cl "domain_hint", jsValToString user.domain_type),
       (cl "login_hint", jsValToString user.signin_name)]
    else [])

/-- Helper: a rejected validation leaves the user object untouched. -/
theorem validate_false_user_eq (decode : List Char → Payload)
    (cid : List Char) (now_ms : Int) (nonce : JSVal) (user : UserProfile)
    (token : JSVal) :
    (validate_id_token decode cid now_ms nonce user token).1 = false →
    (validate_id_token decode cid now_ms nonce user token).2 = user := by
  cases token with
  | undef => intro _; rfl
  | null => intro _; rfl
  | str t =>
    simp only [validate_id_token]
    split_ifs <;> simp

/-- Helper: validation succeeds only on string tokens. -/
theorem validate_true_token (decode : List Char → Payload)
    (cid : List Char) (now_ms : Int) (nonce : JSVal) (user : UserProfile)
    (token : JSVal) :
    (validate_id_token decode cid now_ms nonce user token).1 = true →
    ∃ t, token = JSVal.str t := by
  cases token with
  | undef => intro h; exact absurd h (by simp [validate_id_token])
  | null => intro h; exact absurd h (by simp [validate_id_token])
  | str t => intro _; exact ⟨t, rfl⟩

/-- C1: `validate_id_token` returns true iff the token string is non-empty,
splits into exactly three period-separated segments, and its decoded
payload has the session nonce, the configured audience, the issuer built
from its own `tid`, and a `nbf`/`exp` window containing the current time
with a 300-second allowance on both sides; and a token with fewer than
three segments is rejected with a result that does not depend on the
decoder at all (it is rejected before any decoding). -/
theorem validate_id_token_iff (decode : List Char → Payload)
    (cid : List Char) (now_ms : Int) (nonce : JSVal) (user : UserProfile) :
    (∀ t : List Char,
      ((validate_id_token decode cid now_ms nonce user (.str t)).1 = true ↔
        (t ≠ [] ∧ (splitOnChar '.' t).length = 3 ∧
         (decode t).nonce = nonce ∧ (decode t).aud = JSVal.str cid ∧
         (decode t).iss = JSVal.str (issuer_of (decode t).tid) ∧
         ((decode t).nbf - 300) * 1000 ≤ now_ms ∧
         now_ms ≤ ((decode t).exp + 300) * 1000))) ∧
    (∀ (t : List Char) (d d2 : List Char → Payload),
      (splitOnChar '.' t).length < 3 →
      (validate_id_token d cid now_ms nonce user (.str t)).1 = false ∧
      validate_id_token d cid now_ms nonce user (.str t) =
        validate_id_token d2 cid now_ms nonce user (.str t)) := by
  constructor
  · intro t
    simp only [validate_id_token]
    split_ifs with h1 h2 h3 h4 h5 h6 <;>
      simp_all [List.isEmpty_iff] <;> omega
  · intro t d d2 h
    have hne : (splitOnChar '.' t).length ≠ 3 := by omega
    by_cases he : t.isEmpty <;> simp [validate_id_token, he, hne]

/-- Witness for C1: a concrete three-segment token accepted via the iff,
and a concrete one-segment token rejected via the fewer-than-three clause. -/
theorem validate_id_token_iff_witness :
    (validate_id_token decode0 (cl "c") 0 (.str (cl "n")) UserProfile.initial
      (.str (cl "a.b.c"))).1 = true ∧
    (validate_id_token decode0 (cl "c") 0 (.str (cl "n")) UserProfile.initial
      (.str (cl "ab"))).1 = false :=
  ⟨((validate_id_token_iff decode0 (cl "c") 0 (.str (cl "n"))
      UserProfile.initial).1 (cl "a.b.c")).mpr (by decide),
   ((validate_id_token_iff decode0 (cl "c") 0 (.str (cl "n"))
      UserProfile.initial).2 (cl "ab") decode0 decode0 (by decide)).1⟩

/-- C8: whenever `validate_id_token` rejects a token, the user profile it
returns is exactly the one it was given; profile fields are written only
after all checks pass. -/
theorem validate_id_token_rejection_frame :
    ∀ (decode : List Char → Payload) (cid : List Char) (now_ms : Int)
      (nonce : JSVal) (user : UserProfile) (token : JSVal),
    (validate_id_token decode cid now_ms nonce user token).1 = false →
    (validate_id_token decode cid now_ms nonce user token).2 = user :=
  fun d c n no u t => validate_false_user_eq d c n no u t

/-- Witness for C8: rejection of an absent token leaves the initial
profile unchanged. -/
theorem validate_id_token_rejection_frame_witness :
    (validate_id_token decode0 (cl "c") 0 JSVal.null UserProfile.initial
      JSVal.undef).2 = UserProfile.initial :=
  validate_id_token_rejection_frame decode0 (cl "c") 0 JSVal.null
    UserProfile.initial JSVal.undef (by decide)

/-- Helper: the accumulator of the unread-count fold distributes. -/
theorem unread_foldl_eq (folders : List MailFolder) :
    ∀ acc : Int,
      folders.foldl
        (fun count folder =>
          if folder.DisplayName = cl "Archive" then count
          else count + folder.UnreadItemCount) acc =
      acc +
        ((folders.filter (fun f => f.DisplayName != cl "Archive")).map
          MailFolder.UnreadItemCount).sum := by
  induction folders with
  | nil => intro acc; simp
  | cons f rest ih =>
    intro acc
    by_cases h : f.DisplayName = cl "Archive" <;>
      simp [List.filter_cons, h, ih] <;> ring

/-- C5: the computed unread total is the sum of `UnreadItemCount` over the
folders whose `DisplayName` is not `Archive`; in particular the example
list yields 3 and the empty list yields 0. -/
theorem calculate_total_unread_messages_spec :
    (∀ folders : List MailFolder,
      calculate_total_unread_messages folders =
        ((folders.filter (fun f => f.DisplayName != cl "Archive")).map
          MailFolder.UnreadItemCount).sum) ∧
    calculate_total_unread_messages
      [⟨cl "Archive", 5⟩, ⟨cl "Inbox", 3⟩, ⟨cl "Sent", 0⟩] = 3 ∧
    calculate_total_unread_messages [] = 0 := by
  refine ⟨fun folders => ?_, by decide, by decide⟩
  simpa using unread_foldl_eq folders 0

/-- C9: with `is_authorized` false, `fetch_message_count` finishes with the
session unchanged and an empty trace: no request is sent, no badge is
rendered, nothing is mutated. -/
theorem fetch_message_count_unauthorized :
    ∀ (cfg : Config) (s : Session) (resp1 : HttpResponse)
      (nonce : List Char) (webResult : Option (List Char))
      (decode : List Char → Payload) (now_ms : Int)
      (profileEmail : Option JSVal) (resp2 : HttpResponse),
    s.is_authorized = false →
    fetch_message_count cfg s resp1 nonce webResult decode now_ms
      profileEmail resp2 = (some s, []) := by
  intro cfg s resp1 nonce webResult decode now_ms profileEmail resp2 h
  simp [fetch_message_count, h]

/-- Witness for C9: the initial (unauthorized) session and a timer fire
produce no events. -/
theorem fetch_message_count_unauthorized_witness :
    fetch_message_count cfg0 Session.initial resp401 (cl "n") none decode0 0
      none resp200 = (some Session.initial, []) :=
  fetch_message_count_unauthorized cfg0 Session.initial resp401 (cl "n")
    none decode0 0 none resp200 (by decide)

/-- Helper: the exact result of `finish_auth` on an invalid id token. -/
theorem finish_auth_invalid_eq (cfg : Config) (s : Session) (frag : List Char)
    (decode : List Char → Payload) (now_ms : Int)
    (profileEmail : Option JSVal) (interactive : Bool)
    (h : (validate_id_token decode cfg.client_id now_ms s.current_nonce
      s.user (jsLookup (parse_auth_response frag) (cl "id_token"))).1 =
      false) :
    finish_auth cfg s interactive (some frag) decode now_ms profileEmail =
      ⟨s, false, if interactive then [.logErr 1] else [.authStart true]⟩ := by
  have hu := validate_false_user_eq decode cfg.client_id now_ms
    s.current_nonce s.user
    (jsLookup (parse_auth_response frag) (cl "id_token")) h
  cases interactive <;> simp [finish_auth, h, hu]

/-- Helper: the exact shape of `finish_auth` on a validated id token: the
promise resolves, the profile request / store write / scheduled fetch
events are emitted, and the new session copies `id_token` and
`access_token` from the parsed fragment. -/
theorem finish_auth_valid_shape (cfg : Config) (s : Session)
    (frag : List Char) (decode : List Char → Payload) (now_ms : Int)
    (profileEmail : Option JSVal) (interactive : Bool)
    (h : (validate_id_token decode cfg.client_id now_ms s.current_nonce
      s.user (jsLookup (parse_auth_response frag) (cl "id_token"))).1 =
      true) :
    ∃ s2 : Session,
      finish_auth cfg s interactive (some frag) decode now_ms profileEmail =
        ⟨s2, true,
         [.request .GET cfg.me_url none, .storeWrite, .fetchScheduled]⟩ ∧
      s2.id_token = jsLookup (parse_auth_response frag) (cl "id_token") ∧
      s2.access_token =
        jsLookup (parse_auth_response frag) (cl "access_token") ∧
      s2.is_authorized = true := by
  have h1 : (finish_auth cfg s interactive (some frag) decode now_ms
      profileEmail).resolved = true := by
    cases profileEmail <;> simp [finish_auth, h]
  have h2 : (finish_auth cfg s interactive (some frag) decode now_ms
      profileEmail).events =
      [.request .GET cfg.me_url none, .storeWrite, .fetchScheduled] := by
    cases profileEmail <;> simp [finish_auth, h]
  have h3 : (finish_auth cfg s interactive (some frag) decode now_ms
      profileEmail).session.id_token =
      jsLookup (parse_auth_response frag) (cl "id_token") := by
    cases profileEmail <;> simp [finish_auth, h]
  have h4 : (finish_auth cfg s interactive (some frag) decode now_ms
      profileEmail).session.access_token =
      jsLookup (parse_auth_response frag) (cl "access_token") := by
    cases profileEmail <;> simp [finish_auth, h]
  have h5 : (finish_auth cfg s interactive (some frag) decode now_ms
      profileEmail).session.is_authorized = true := by
    cases profileEmail <;> simp [finish_auth, h]
  exact ⟨(finish_auth cfg s interactive (some frag) decode now_ms
      profileEmail).session, by rw [← h1, ← h2], h3, h4, h5⟩

/-- C4: when `finish_auth` finds the id token invalid, the session is left
exactly as it was and the promise is not resolved; a non-interactive
attempt emits exactly one nested `authorize` call with `interactive=true`,
while an interactive attempt emits exactly one authorization-failure log
entry. -/
theorem finish_auth_invalid_token :
    ∀ (cfg : Config) (s : Session) (frag : List Char)
      (decode : List Char → Payload) (now_ms : Int)
      (profileEmail : Option JSVal) (interactive : Bool),
    (validate_id_token decode cfg.client_id now_ms s.current_nonce s.user
      (jsLookup (parse_auth_response frag) (cl "id_token"))).1 = false →
    finish_auth cfg s interactive (some frag) decode now_ms profileEmail =
      ⟨s, false, if interactive then [.logErr 1] else [.authStart true]⟩ :=
  fun cfg s frag decode now_ms profileEmail interactive h =>
    finish_auth_invalid_eq cfg s frag decode now_ms profileEmail interactive h

/-- Witness for C4: a fragment carrying only an error parameter fails
validation; the interactive attempt logs, the non-interactive attempt
starts one interactive authorization, and the session is unchanged in
both cases. -/
theorem finish_auth_invalid_token_witness :
    finish_auth cfg0 Session.initial true (some (cl "#error=access_denied"))
        decode0 0 none = ⟨Session.initial, false, [.logErr 1]⟩ ∧
    finish_auth cfg0 Session.initial false (some (cl "#error=access_denied"))
        decode0 0 none = ⟨Session.initial, false, [.authStart true]⟩ :=
  ⟨finish_auth_invalid_token cfg0 Session.initial (cl "#error=access_denied")
      decode0 0 none true (by decide),
   finish_auth_invalid_token cfg0 Session.initial (cl "#error=access_denied")
      decode0 0 none false (by decide)⟩

/-- C3 counterexample: the claimed invariant fails on a reachable state.
Starting unauthorized, one `authorize` picks nonce `n`; the identity
provider then delivers the redirect fragment `#id_token=a.b.c` whose
(decoded) token passes every validation check but which carries no
`access_token` parameter.  `finish_auth` accepts it and copies both parse
results, leaving `id_token` a string while `access_token` is `undefined`:
exactly one of the two is set. -/
theorem session_tokens_invariant_counterexample :
    ReachableP cfg0 decode0 (fun _ => True) c3_bad_world ∧
    c3_bad_world.session.id_token = JSVal.str (cl "a.b.c") ∧
    c3_bad_world.session.access_token = JSVal.undef ∧
    ¬ tokens_consistent c3_bad_world.session := by
  refine ⟨?_, by decide, by decide, ?_⟩
  · exact ReachableP.finishAuth c3_step1 false (cl "#id_token=a.b.c") 0 none
      trivial (ReachableP.authStart World.start (cl "n") ReachableP.start)
  · intro h
    have ha : c3_bad_world.session.access_token = JSVal.undef := by decide
    rcases h with ⟨a, b, h1, _⟩ | ⟨h1, _⟩ <;> rw [ha] at h1 <;> simp at h1

/-- C3 amended: in every state reachable when each accepted authorization
response fragment actually carries an `access_token` parameter, the
session's `access_token` and `id_token` are both strings or both null,
and the persisted store satisfies the same invariant. -/
theorem reachable_tokens_consistent :
    ∀ (cfg : Config) (decode : List Char → Payload) (w : World),
    ReachableP cfg decode fragment_has_access_token w →
    tokens_consistent w.session ∧ tokens_consistent w.store := by
  intro cfg decode w h
  induction h with
  | start => exact ⟨Or.inr ⟨rfl, rfl⟩, Or.inr ⟨rfl, rfl⟩⟩
  | storeLoad w hw ih => exact ⟨ih.2, ih.2⟩
  | authStart w n hw ih =>
    refine ⟨?_, ih.2⟩
    rcases ih.1 with ⟨a, b, h1, h2⟩ | ⟨h1, h2⟩
    · exact Or.inl ⟨a, b, h1, h2⟩
    · exact Or.inr ⟨h1, h2⟩
  | finishAuth w interactive frag now_ms profileEmail hP hw ih =>
    by_cases hv : (validate_id_token decode cfg.client_id now_ms
        w.session.current_nonce w.session.user
        (jsLookup (parse_auth_response frag) (cl "id_token"))).1 = true
    · obtain ⟨s2, heq, hid, hacc, _⟩ := finish_auth_valid_shape cfg
        w.session frag decode now_ms profileEmail interactive hv
      obtain ⟨t, ht⟩ := validate_true_token decode cfg.client_id now_ms
        w.session.current_nonce w.session.user _ hv
      obtain ⟨a, hA⟩ := hP
      have hcons : tokens_consistent s2 := by
        rw [ht] at hid
        exact Or.inl ⟨a, t, by rw [hacc, hA], hid⟩
      rw [heq]
      have happ : applyFA w
          ⟨s2, true,
           [.request .GET cfg.me_url none, .storeWrite, .fetchScheduled]⟩ =
          ⟨s2, s2⟩ := by simp [applyFA]
      rw [happ]
      exact ⟨hcons, hcons⟩
    · rw [Bool.not_eq_true] at hv
      rw [finish_auth_invalid_eq cfg w.session frag decode now_ms
        profileEmail interactive hv]
      have hmem : Event.storeWrite ∉
          (if interactive then [Event.logErr 1]
           else [Event.authStart true]) := by
        cases interactive <;> decide
      have happ : applyFA w
          ⟨w.session, false,
           if interactive then [Event.logErr 1]
           else [Event.authStart true]⟩ = ⟨w.session, w.store⟩ := by
        simp [applyFA, hmem]
      rw [happ]
      exact ih
  | finishAuthErr w interactive now_ms profileEmail hw ih =>
    simpa [applyFA, finish_auth] using ih

/-- Witness for the amended C3 invariant: the start world is reachable and
satisfies it. -/
theorem reachable_tokens_consistent_witness :
    tokens_consistent World.start.session ∧
    tokens_consistent World.start.store :=
  reachable_tokens_consistent cfg0 decode0 World.start ReachableP.start

/-- C2 (evaluation at the failing input): when the first mail-folder
request fails with status 401 and the silent reauthorization resolves,
exactly one silent authorization starts and exactly one further request is
issued — but the retried request is a POST to the bare mail-folders url
carrying the query object as its request body, while the first request was
a GET to the url with the serialized query string appended; the two urls
differ and the two methods differ. -/
theorem fetch_retry_not_same_request :
    requests (fetch_message_count cfg0 s_auth resp401 (cl "n") none decode0
        0 none resp200).2 =
      [.request .GET (generate_request_url cfg0.mail_folders_url fetch_query)
          none,
       .request .POST cfg0.mail_folders_url (some fetch_query)] ∧
    generate_request_url cfg0.mail_folders_url fetch_query ≠
      cfg0.mail_folders_url ∧
    (fetch_message_count cfg0 s_auth resp401 (cl "n") none decode0 0 none
        resp200).2.count (Event.authStart false) = 1 := by
  refine ⟨by decide, by decide, by decide⟩

/-- Helper: in a trace of the shape `pre ++ a :: (mid ++ b :: r :: tail)`
where the event `r` occurs nowhere else, every occurrence of `r` is
preceded first by `a` and then by `b`. -/
theorem trace_before (r a b : Event) (pre mid tail : List Event)
    (hnr : r ∉ pre) (hna : a ≠ r) (hnb : b ≠ r) (hnm : r ∉ mid)
    (hnt : r ∉ tail) (j : Nat)
    (hj : (pre ++ a :: (mid ++ b :: r :: tail))[j]? = some r) :
    ∃ i k, i < k ∧ k < j ∧
      (pre ++ a :: (mid ++ b :: r :: tail))[i]? = some a ∧
      (pre ++ a :: (mid ++ b :: r :: tail))[k]? = some b := by
  rcases Nat.lt_or_ge j pre.length with hl | hge
  · rw [List.getElem?_append_left hl] at hj
    exact absurd (List.getElem?_mem hj) hnr
  · obtain ⟨d, rfl⟩ : ∃ d, j = pre.length + d := ⟨j - pre.length, by omega⟩
    rw [List.getElem?_append_right (Nat.le_add_right _ _),
      Nat.add_sub_cancel_left] at hj
    cases d with
    | zero =>
      simp only [List.getElem?_cons_zero, Option.some_inj] at hj
      exact absurd hj hna
    | succ m =>
      rw [List.getElem?_cons_succ] at hj
      rcases Nat.lt_or_ge m mid.length with hm | hm2
      · rw [List.getElem?_append_left hm] at hj
        exact absurd (List.getElem?_mem hj) hnm
      · obtain ⟨e, rfl⟩ : ∃ e, m = mid.length + e :=
          ⟨m - mid.length, by omega⟩
        rw [List.getElem?_append_right (Nat.le_add_right _ _),
          Nat.add_sub_cancel_left] at hj
        cases e with
        | zero =>
          simp only [List.getElem?_cons_zero, Option.some_inj] at hj
          exact absurd hj hnb
        | succ e1 =>
          cases e1 with
          | zero =>
            refine ⟨pre.length, pre.length + (mid.length + 1), by omega,
              by omega, ?_, ?_⟩
            · rw [List.getElem?_append_right (le_refl _), Nat.sub_self]
              simp
            · rw [List.getElem?_append_right (Nat.le_add_right _ _),
                Nat.add_sub_cancel_left, List.getElem?_cons_succ,
                List.getElem?_append_right (le_refl _), Nat.sub_self]
              simp
          | succ e2 =>
            simp only [List.getElem?_cons_succ] at hj
            exact absurd (List.getElem?_mem hj) hnt

/-- Helper: the three possible outcomes of a silent `finish_auth` run: the
provider-error path resolves with a log entry, the validated path resolves
with the profile-fetch / store-write / scheduled-fetch events, and the
invalid-token path leaves the promise pending after starting an
interactive authorization. -/
theorem finish_auth_cases (cfg : Config) (s : Session)
    (webResult : Option (List Char)) (decode : List Char → Payload)
    (now_ms : Int) (profileEmail : Option JSVal) :
    ((finish_auth cfg s false webResult decode now_ms
        profileEmail).resolved = true ∧
      (finish_auth cfg s false webResult decode now_ms
        profileEmail).events = [.logErr 0]) ∨
    ((finish_auth cfg s false webResult decode now_ms
        profileEmail).resolved = true ∧
      (finish_auth cfg s false webResult decode now_ms
        profileEmail).events =
        [.request .GET cfg.me_url none, .storeWrite, .fetchScheduled]) ∨
    ((finish_auth cfg s false webResult decode now_ms
        profileEmail).resolved = false ∧
      (finish_auth cfg s false webResult decode now_ms
        profileEmail).events = [.authStart true]) := by
  cases webResult with
  | none => exact Or.inl ⟨rfl, rfl⟩
  | some frag =>
    by_cases hv : (validate_id_token decode cfg.client_id now_ms
        s.current_nonce s.user
        (jsLookup (parse_auth_response frag) (cl "id_token"))).1 = true
    · obtain ⟨s2, heq, _, _, _⟩ := finish_auth_valid_shape cfg s frag decode
        now_ms profileEmail false hv
      rw [heq]
      exact Or.inr (Or.inl ⟨rfl, rfl⟩)
    · rw [Bool.not_eq_true] at hv
      rw [finish_auth_invalid_eq cfg s frag decode now_ms profileEmail
        false hv]
      exact Or.inr (Or.inr ⟨rfl, rfl⟩)

/-- C6: in every trace of `fetch_message_count`, whenever the retried
mail-folder request is issued at position `j`, a silent reauthorization
start and, after it, the resolution of that reauthorization's promise both
occur strictly before `j`: the awaited `authorize` promise settles (on
success or on provider-reported failure) before the retry is issued, and
if it never settles no retry is issued at all. -/
theorem fetch_retry_after_auth_complete :
    ∀ (cfg : Config) (s : Session) (resp1 : HttpResponse)
      (nonce : List Char) (webResult : Option (List Char))
      (decode : List Char → Payload) (now_ms : Int)
      (profileEmail : Option JSVal) (resp2 : HttpResponse) (j : Nat),
    (fetch_message_count cfg s resp1 nonce webResult decode now_ms
        profileEmail resp2).2[j]? = some (retry_event cfg) →
    ∃ i k, i < k ∧ k < j ∧
      (fetch_message_count cfg s resp1 nonce webResult decode now_ms
          profileEmail resp2).2[i]? = some (Event.authStart false) ∧
      (fetch_message_count cfg s resp1 nonce webResult decode now_ms
          profileEmail resp2).2[k]? = some Event.authResolved := by
  intro cfg s resp1 nonce webResult decode now_ms profileEmail resp2 j hj
  by_cases h0 : s.is_authorized = false
  · simp [fetch_message_count, h0] at hj
  · simp only [fetch_message_count] at hj ⊢
    rw [if_neg h0] at hj ⊢
    by_cases hr : resp1.ok = false ∧ resp1.status < 500
    · rw [if_pos hr] at hj ⊢
      rcases finish_auth_cases cfg { s with current_nonce := JSVal.str nonce }
          webResult decode now_ms profileEmail with
        ⟨hres, hev⟩ | ⟨hres, hev⟩ | ⟨hres, hev⟩
      · rw [if_pos hres, hev] at hj ⊢
        simp only [finish_fetch] at hj ⊢
        by_cases hok : resp2.ok = false
        · rw [if_pos hok] at hj ⊢
          exact trace_before _ _ _
            [.request .GET (generate_request_url cfg.mail_folders_url
              fetch_query) none] [.logErr 0] [.logErr 2]
            (by simp [retry_event]) (by simp [retry_event])
            (by simp [retry_event]) (by simp [retry_event])
            (by simp [retry_event]) j hj
        · rw [if_neg hok] at hj ⊢
          exact trace_before _ _ _
            [.request .GET (generate_request_url cfg.mail_folders_url
              fetch_query) none] [.logErr 0] [_]
            (by simp [retry_event]) (by simp [retry_event])
            (by simp [retry_event]) (by simp [retry_event])
            (by simp [retry_event]) j hj
      · rw [if_pos hres, hev] at hj ⊢
        simp only [finish_fetch] at hj ⊢
        by_cases hok : resp2.ok = false
        · rw [if_pos hok] at hj ⊢
          exact trace_before _ _ _
            [.request .GET (generate_request_url cfg.mail_folders_url
              fetch_query) none]
            [.request .GET cfg.me_url none, .storeWrite, .fetchScheduled]
            [.logErr 2]
            (by simp [retry_event]) (by simp [retry_event])
            (by simp [retry_event]) (by simp [retry_event])
            (by simp [retry_event]) j hj
        · rw [if_neg hok] at hj ⊢
          exact trace_before _ _ _
            [.request .GET (generate_request_url cfg.mail_folders_url
              fetch_query) none]
            [.request .GET cfg.me_url none, .storeWrite, .fetchScheduled]
            [_]
            (by simp [retry_event]) (by simp [retry_event])
            (by simp [retry_event]) (by simp [retry_event])
            (by simp [retry_event]) j hj
      · rw [if_neg (by simp [hres])] at hj
        rw [show ([Event.request Method.GET
            (generate_request_url cfg.mail_folders_url fetch_query) none] ++
            [Event.authStart false] ++
            (finish_auth cfg { s with current_nonce := JSVal.str nonce } false
              webResult decode now_ms profileEmail).events) =
            [Event.request Method.GET
              (generate_request_url cfg.mail_folders_url fetch_query) none,
             Event.authStart false, Event.authStart true] from
          by rw [hev]; rfl] at hj
        have hm := List.getElem?_mem hj
        simp [retry_event] at hm
    · rw [if_neg hr] at hj
      simp only [finish_fetch] at hj
      by_cases hok : resp1.ok = false
      · rw [if_pos hok] at hj
        have hm := List.getElem?_mem hj
        simp [retry_event] at hm
      · rw [if_neg hok] at hj
        have hm := List.getElem?_mem hj
        simp [retry_event] at hm

/-- Witness for C6: at the concrete expired-token run, the retry sits at
position 4, after the silent authorization start (position 1) and the
promise resolution (position 3). -/
theorem fetch_retry_after_auth_complete_witness :
    ∃ i k, i < k ∧ k < 4 ∧
      (fetch_message_count cfg0 s_auth resp401 (cl "n") none decode0 0 none
          resp200).2[i]? = some (Event.authStart false) ∧
      (fetch_message_count cfg0 s_auth resp401 (cl "n") none decode0 0 none
          resp200).2[k]? = some Event.authResolved :=
  fetch_retry_after_auth_complete cfg0 s_auth resp401 (cl "n") none decode0
    0 none resp200 4 (by decide)

/-- Helper: splitting a string that does not contain the separator yields
the single piece. -/
theorem splitOnChar_of_not_mem (sep : Char) (l : List Char) (h : sep ∉ l) :
    splitOnChar sep l = [l] := by
  induction l with
  | nil => rfl
  | cons c rest ih =>
    have hc : ¬ (c = sep) := fun e => h (e ▸ List.mem_cons_self c rest)
    have hrest : sep ∉ rest := fun hm => h (List.mem_cons_of_mem _ hm)
    simp [splitOnChar, hc, ih hrest]

/-- Helper: splitting `k ++ sep :: v` where `k` is separator-free peels off
`k` as the first piece. -/
theorem splitOnChar_append (sep : Char) (k v : List Char) (h : sep ∉ k) :
    splitOnChar sep (k ++ sep :: v) = k :: splitOnChar sep v := by
  induction k with
  | nil => simp [splitOnChar]
  | cons c rest ih =>
    have hc : ¬ (c = sep) := fun e => h (e ▸ List.mem_cons_self c rest)
    have hrest : sep ∉ rest := fun hm => h (List.mem_cons_of_mem _ hm)
    simp only [List.cons_append]
    rw [splitOnChar, ih hrest]
    simp [hc]

/-- Helper: the first piece of a split is the prefix before the first
separator. -/
theorem splitOnChar_exists_head (sep : Char) (v : List Char) :
    ∃ t, splitOnChar sep v =
      (v.takeWhile (fun c => c != sep)) :: t := by
  induction v with
  | nil => exact ⟨[], rfl⟩
  | cons c rest ih =>
    obtain ⟨t, ht⟩ := ih
    by_cases hc : c = sep
    · subst hc
      exact ⟨splitOnChar c rest, by simp [splitOnChar, List.takeWhile_cons]⟩
    · refine ⟨t, ?_⟩
      simp [splitOnChar, hc, ht, List.takeWhile_cons]

/-- C10: for every redirect-fragment parameter `key=value` whose raw value
contains further `=` characters, `parse_auth_response` stores only the
portion of the value before its first `=` (the substring between the first
and the second `=` of the pair); the remainder is silently dropped. -/
theorem parse_auth_response_truncates :
    ∀ (k v : List Char), '=' ∉ k → '&' ∉ k → '&' ∉ v →
    jsLookup (parse_auth_response (('#' :: k) ++ '=' :: v)) k =
      JSVal.str (v.takeWhile (fun c => c != '=')) := by
  intro k v hek hak hav
  have h1 : substring_after_hash (('#' :: k) ++ '=' :: v) = k ++ '=' :: v :=
    rfl
  have hmem : '&' ∉ k ++ '=' :: v := by
    intro hm
    rcases List.mem_append.mp hm with h | h
    · exact hak h
    · rcases List.mem_cons.mp h with h | h
      · exact absurd h (by decide)
      · exact hav h
  have h2 : splitOnChar '&' (k ++ '=' :: v) = [k ++ '=' :: v] :=
    splitOnChar_of_not_mem _ _ hmem
  have h3 : splitOnChar '=' (k ++ '=' :: v) = k :: splitOnChar '=' v :=
    splitOnChar_append _ _ _ hek
  obtain ⟨t, ht⟩ := splitOnChar_exists_head '=' v
  have h4 : parse_auth_response (('#' :: k) ++ '=' :: v) =
      [(k, some (v.takeWhile (fun c => c != '=')))] := by
    unfold parse_auth_response
    rw [h1, h2]
    simp only [List.map_cons, List.map_nil]
    rw [h3, ht]
    simp
  rw [h4]
  simp [jsLookup]

/-- Witness for C10: the parameter `access_token=abc=xyz` is stored with
value `abc`. -/
theorem parse_auth_response_truncates_witness :
    jsLookup (parse_auth_response
        (('#' :: cl "access_token") ++ '=' :: cl "abc=xyz"))
      (cl "access_token") =
      JSVal.str ((cl "abc=xyz").takeWhile (fun c => c != '=')) :=
  parse_auth_response_truncates (cl "access_token") (cl "abc=xyz")
    (by decide) (by decide) (by decide)

/-- Helper: `encodeURIComponent` is the identity on strings made of
unescaped characters. -/
theorem encodeURIComponent_of_unreserved (s : List Char)
    (h : ∀ c ∈ s, is_uri_unreserved c = true) :
    encodeURIComponent s = s := by
  induction s with
  | nil => rfl
  | cons c rest ih =>
    have hc := h c (List.mem_cons_self _ _)
    have hrest : encodeURIComponent rest = rest :=
      ih (fun x hx => h x (List.mem_cons_of_mem _ hx))
    simp only [encodeURIComponent] at hrest ⊢
    simp [List.flatMap_cons, hc, hrest]

/-- Helper: lowercase hexadecimal digits are unescaped characters. -/
theorem hexDigitLower_unreserved : ∀ n < 16,
    is_uri_unreserved (hexDigitLower n) = true := by decide

/-- Helper: every character produced by the hex conversion is unescaped
(provided the accumulator only holds unescaped characters). -/
theorem natToHexAux_unreserved : ∀ (n : Nat) (acc : List Char),
    (∀ c ∈ acc, is_uri_unreserved c = true) →
    ∀ c ∈ natToHexAux n acc, is_uri_unreserved c = true := by
  intro n
  induction n using Nat.strong_induction_on with
  | _ n ih =>
    intro acc hacc c hc
    rw [natToHexAux] at hc
    by_cases h16 : n < 16
    · rw [dif_pos h16] at hc
      rcases List.mem_cons.mp hc with h | h
      · exact h ▸ hexDigitLower_unreserved n h16
      · exact hacc c h
    · rw [dif_neg h16] at hc
      refine ih (n / 16) (Nat.div_lt_self (by omega) (by omega)) _ ?_ c hc
      intro x hx
      rcases List.mem_cons.mp hx with h | h
      · exact h ▸ hexDigitLower_unreserved (n % 16) (Nat.mod_lt _ (by omega))
      · exact hacc x h

/-- Helper: every character of an `s4` block is unescaped. -/
theorem s4_unreserved (n : Nat) : ∀ c ∈ s4 n, is_uri_unreserved c = true := by
  intro c hc
  simp only [s4] at hc
  rcases List.mem_append.mp hc with h | h
  · rw [List.eq_of_mem_replicate h]; decide
  · exact natToHexAux_unreserved n [] (by simp) c h

/-- Helper: the nonce fold produces only unescaped characters. -/
theorem create_nonce_fold_unreserved : ∀ (l : List (Nat × Nat))
    (acc : List Char), (∀ c ∈ acc, is_uri_unreserved c = true) →
    ∀ c ∈ l.foldl
      (fun result p =>
        result ++ (if 1 < p.1 ∧ p.1 < 6 then ['-'] else []) ++ s4 p.2)
      acc,
    is_uri_unreserved c = true := by
  intro l
  induction l with
  | nil => intro acc hacc c hc; exact hacc c hc
  | cons p rest ih =>
    intro acc hacc c hc
    refine ih _ ?_ c hc
    intro x hx
    rcases List.mem_append.mp hx with h | h
    · rcases List.mem_append.mp h with h1 | h1
      · exact hacc x h1
      · by_cases hcond : 1 < p.1 ∧ p.1 < 6
        · rw [if_pos hcond] at h1
          rw [List.mem_singleton.mp h1]; decide
        · rw [if_neg hcond] at h1
          exact absurd h1 (List.not_mem_nil x)
    · exact s4_unreserved p.2 x h

/-- Helper: `create_nonce` emits only hex digits, zeros and dashes, all of
which `encodeURIComponent` leaves unescaped. -/
theorem create_nonce_unreserved (parts : List Nat) :
    ∀ c ∈ create_nonce parts, is_uri_unreserved c = true := by
  intro c hc
  simp only [create_nonce] at hc
  exact create_nonce_fold_unreserved parts.enum [] (by simp) c hc

set_option maxRecDepth 10000 in
/-- C7 counterexample: with a sign-in hint containing `@`, the url the
code serializes differs from the serialization in which every query value
is percent-encoded exactly once: `login_hint` (among others) is inserted
raw. -/
theorem auth_url_encoding_counterexample :
    auth_url_code cfg0 user_hint false (cl "aaaa") (cl "bbbb") ≠
      auth_url_spec cfg0 user_hint false (cl "aaaa") (cl "bbbb") := by
  decide

/-- C7 amended: exactly three query values are percent-encoded (exactly
once) when `authorize` builds its query — `redirect_uri`, `scope`, and the
interactive `response_type` — while `client_id`, `response_mode`, `nonce`,
`state`, and the non-interactive `response_type`, `prompt`, `domain_hint`
and `login_hint` values are serialized raw; the raw `nonce`/`state` values
produced by `create_nonce` consist only of unescaped characters, so for
them the raw form coincides with the percent-encoded form. -/
theorem auth_query_encoding_amended :
    (∀ (cfg : Config) (user : UserProfile) (interactive : Bool)
       (nonce state : List Char),
      auth_query cfg user interactive nonce state =
        auth_query_amended_spec cfg user interactive nonce state) ∧
    (∀ parts : List Nat,
      encodeURIComponent (create_nonce parts) = create_nonce parts) := by
  constructor
  · intro cfg user interactive nonce state
    cases interactive with
    | false => rfl
    | true =>
      by_cases ht : jsTruthy user.domain_type = true ∧
          jsTruthy user.signin_name = true
      · simp [auth_query, auth_query_amended_spec, ht]
      · simp [auth_query, auth_query_amended_spec, ht]
  · intro parts
    exact encodeURIComponent_of_unreserved _ (create_nonce_unreserved parts)
